import Mathlib

/-!
Verification development for the st_chat_app retrieval-and-matching engine.

The definitions below are a shallow embedding of the Python sources:

* `app/services/knowledge_base.py` — `KnowledgeBaseService`: the time-bound
  cache, the live-fetch / mock / fallback chain, and the keyword search.
  Network I/O (`requests.get`) is modelled by an explicit `LiveResult`
  argument describing the outcome of the HTTP exchange; wall-clock time is an
  explicit rational `now` argument.  The Python method bodies are otherwise
  translated branch by branch.  Entry answer payloads are opaque to every
  operation modelled here and are therefore not carried in `Entry`.
* `app/utils/similarity.py` — `SimilarityCalculator.find_best_match`,
  `SimilarityCalculator.get_top_matches`, `ThresholdValidator`.  Floating
  point cosine similarity is abstracted as a caller-supplied score function
  `sim : β → ℚ` on embedding vectors (the query embedding is fixed inside
  `sim`); `np.argmax` is embedded as `argmaxIdx` (first index attaining the
  maximum, as numpy documents), and `np.argsort` descending as a sort by
  score descending.
* `app/api/routes.py` — the `/query` endpoint pipeline, with its external
  collaborators (MongoDB document retrieval, the embedding model) passed in
  as explicit arguments and the side effects it performs recorded in an
  effect trace.
-/

/-- A knowledge-base entry (`app/services/knowledge_base.py` mock data and
API payload entries).  `question = none` models a missing `question` key;
`some ""` models a present-but-empty one (both are falsy in Python).  The
answer payload is opaque to all operations modelled here and is omitted. -/
structure Entry where
  id : String
  question : Option String
deriving DecidableEq, Repr

/-- The dict stored in `self.cache` by `KnowledgeBaseService`:
`{'data': ..., 'status': ..., 'count': ...}`. -/
structure CacheRecord where
  data : List Entry
  status : String
  count : ℕ
deriving DecidableEq, Repr

/-- The mutable state of a `KnowledgeBaseService` instance: `self.cache`
(`none` models the empty dict `{}`, which is falsy) and
`self.last_cache_time`.  Timestamps (`time.time()` values, in seconds) are
modelled as integers; every cache-freshness comparison in the source is a
pure order comparison, for which this is faithful. -/
structure KBState where
  cache : Option CacheRecord
  last_cache_time : ℤ
deriving DecidableEq, Repr

/-- `self.cache_expiry = 300  # 5 minutes`. -/
def cache_expiry : ℤ := 300

/-- Payload of a 200 response after `response.json()` succeeded: either a
JSON list of entries or some other JSON value (`isinstance(data, list)`
fails). -/
inductive LivePayload
  | list (entries : List Entry)
  | nonList
deriving DecidableEq, Repr

/-- Outcome of the `requests.get` exchange in `fetch_knowledge_base`,
covering every branch of its try/except ladder. -/
inductive LiveResult
  | ok (payload : LivePayload)
  | okBadJson
  | httpStatus (code : ℕ)
  | timeout
  | connectionError
  | requestError
  | genericError
deriving DecidableEq, Repr

/-- `True` exactly on the branches of `fetch_knowledge_base` that do not end
in a successfully parsed list payload: non-200 statuses (401/403/404/other),
a 200 with a non-list or unparsable body, and the four exception handlers. -/
def LiveResult.isFailure : LiveResult → Bool
  | .ok (.list _) => false
  | _ => true

/-- The cache-store step the Python code performs in three places
(`self.cache = {'data': entries, 'status': status, 'count': len(entries)}`
followed by `self.last_cache_time = time.time()`). -/
def store_cache (entries : List Entry) (status : String) (now : ℤ) : KBState :=
  ⟨some ⟨entries, status, entries.length⟩, now⟩

/-- `KnowledgeBaseService.mock_data`, keeping the `_id` and `question`
fields (the answer payloads are opaque here). -/
def mock_data : List Entry :=
  [⟨"6880bed079737a9e77620472", some "can u develop kotlin api backend"⟩,
   ⟨"68815c7179737a9e77620473", some "tell me about your self"⟩,
   ⟨"68815ca179737a9e77620474", some "education and career experience"⟩,
   ⟨"68815ea479737a9e77620481", some "can u design a photo"⟩]

/-- `KnowledgeBaseService._is_cache_valid`:
`self.cache and time.time() - self.last_cache_time < self.cache_expiry`. -/
def is_cache_valid (s : KBState) (now : ℤ) : Bool :=
  s.cache.isSome && decide (now - s.last_cache_time < cache_expiry)

/-- `KnowledgeBaseService._fallback_to_mock`: store the mock data with
status `'fallback'`, stamp the cache time, and return the mock data. -/
def fallback_to_mock (now : ℤ) : List Entry × KBState :=
  (mock_data, store_cache mock_data "fallback" now)

/-- `KnowledgeBaseService.fetch_knowledge_base`.  Returns the entry list the
Python method returns together with the updated service state.  The order of
the branches follows the source: valid cache first, then the explicit
`use_mock` request, then the live HTTP exchange with every failure branch
delegating to `_fallback_to_mock`. -/
def fetch_knowledge_base (s : KBState) (now : ℤ) (use_mock : Bool)
    (live : LiveResult) : List Entry × KBState :=
  if is_cache_valid s now then
    ((s.cache.map CacheRecord.data).getD [], s)
  else if use_mock then
    (mock_data, store_cache mock_data "mock" now)
  else
    match live with
    | .ok (.list data) => (data, store_cache data "success" now)
    | _ => fallback_to_mock now

/-- `KnowledgeBaseService.clear_cache`: `self.cache = {}`,
`self.last_cache_time = 0`. -/
def clear_cache (_s : KBState) : KBState := ⟨none, 0⟩

/-- Python `str.lower()` (ASCII case folding, which covers every string the
service compares). -/
def pyLower (s : String) : String :=
  ⟨s.data.map Char.toLower⟩

/-- Python `str.strip()`: drop leading and trailing whitespace. -/
def pyStrip (s : String) : String :=
  ⟨((s.data.dropWhile Char.isWhitespace).reverse.dropWhile
      Char.isWhitespace).reverse⟩

/-- Substring containment on character lists: Python's `needle in hay`. -/
def charsContains (needle : List Char) : List Char → Bool
  | [] => needle.isEmpty
  | c :: t => needle.isPrefixOf (c :: t) || charsContains needle t

/-- Python `needle in hay` for strings. -/
def strContains (hay needle : String) : Bool :=
  charsContains needle.data hay.data

/-- `ai_keywords` in `search_knowledge_base` (defined in the source but
never consulted by either matching loop). -/
def ai_keywords : List String :=
  ["ai", "artificial intelligence", "artificial", "intelligence"]

/-- `ml_keywords` in `search_knowledge_base` (defined in the source but
never consulted by either matching loop). -/
def ml_keywords : List String :=
  ["ml", "machine learning", "machine", "learning"]

/-- `kotlin_keywords` in `search_knowledge_base`. -/
def kotlin_keywords : List String :=
  ["kotlin", "api", "backend", "development", "develop"]

/-- `about_keywords` in `search_knowledge_base`. -/
def about_keywords : List String :=
  ["about", "yourself", "who are you", "tell me about", "self"]

/-- `education_keywords` in `search_knowledge_base`. -/
def education_keywords : List String :=
  ["education", "career", "experience", "background"]

/-- `design_keywords` in `search_knowledge_base`. -/
def design_keywords : List String :=
  ["design", "photo", "image", "graphic"]

/-- `any(keyword in text for keyword in keywords)`. -/
def anyKeyword (text : String) (keywords : List String) : Bool :=
  keywords.any (fun k => strContains text k)

/-- One iteration of the first loop of `search_knowledge_base`: skip falsy
questions, then exact match or substring match in either direction. -/
def direct_match (qLower : String) (e : Entry) : Bool :=
  match e.question with
  | none => false
  | some q =>
    q ≠ "" &&
      (let eL := pyLower q
       qLower = eL || strContains eL qLower || strContains qLower eL)

/-- One iteration of the second loop of `search_knowledge_base`: skip falsy
questions, then the four keyword groups the loop actually tests, in source
order (about, education, kotlin, design).  The `ai_keywords` and
`ml_keywords` lists are defined in the source but appear in neither loop. -/
def keyword_match (qLower : String) (e : Entry) : Bool :=
  match e.question with
  | none => false
  | some q =>
    q ≠ "" &&
      (let eL := pyLower q
       (anyKeyword qLower about_keywords && anyKeyword eL about_keywords) ||
       (anyKeyword qLower education_keywords && anyKeyword eL education_keywords) ||
       (anyKeyword qLower kotlin_keywords && anyKeyword eL kotlin_keywords) ||
       (anyKeyword qLower design_keywords && anyKeyword eL design_keywords))

/-- The two matching passes of `search_knowledge_base` over fetched data:
the direct (exact/substring) loop over all entries, then the keyword loop
over all entries; each returns the first entry it matches. -/
def search_in_data (qLower : String) (knowledge_data : List Entry) :
    Option Entry :=
  match knowledge_data.find? (direct_match qLower) with
  | some e => some e
  | none => knowledge_data.find? (keyword_match qLower)

/-- `KnowledgeBaseService.search_knowledge_base`: guard the empty question,
fetch (with `use_mock=False`), guard empty data, lowercase the stripped
question, then run the two matching passes. -/
def search_knowledge_base (s : KBState) (now : ℤ) (live : LiveResult)
    (question : String) : Option Entry × KBState :=
  if pyStrip question = "" then (none, s)
  else
    let fetched := fetch_knowledge_base s now false live
    if fetched.1.isEmpty then (none, fetched.2)
    else (search_in_data (pyLower (pyStrip question)) fetched.1, fetched.2)

/-- The maximum of a list of similarity scores; on a nonempty list this is
the value `similarities[np.argmax(similarities)]` the Python code reads
back.  The `[]` case is never reached by `find_best_match` (it returns
earlier with score `0.0`). -/
def maxVal : List ℚ → ℚ
  | [] => 0
  | x :: xs => xs.foldl max x

/-- `np.argmax`, as numpy documents it: the index of the first occurrence of
the maximum value. -/
def argmaxIdx : List ℚ → ℕ
  | [] => 0
  | [_] => 0
  | x :: y :: xs =>
    if x < maxVal (y :: xs) then argmaxIdx (y :: xs) + 1 else 0

/-- `SimilarityCalculator.find_best_match`.  `sim` abstracts the cosine
similarity of the fixed query embedding against one document embedding
(the result of `calculate_cosine_similarity` is `document_embeddings.map
sim`); `threshold = none` models the `None` default resolved from
`current_app.config.get('SIMILARITY_THRESHOLD', 0.6)`, passed here as
`configThreshold`.  Result: `.error` for the raised `ValueError`, otherwise
`(best document or none, best similarity, best index or -1)`. -/
def find_best_match {α β : Type} [Inhabited α] (sim : β → ℚ)
    (document_embeddings : List β) (documents : List α)
    (threshold : Option ℚ) (configThreshold : ℚ) :
    Except String (Option α × ℚ × ℤ) :=
  if documents.length ≠ document_embeddings.length then
    .error "Number of documents must match number of embeddings"
  else if documents.length = 0 then
    .ok (none, 0, -1)
  else
    let t := threshold.getD configThreshold
    let similarities := document_embeddings.map sim
    let best_index := argmaxIdx similarities
    let best_similarity := similarities.getD best_index 0
    if best_similarity ≥ t then
      .ok (some (documents.getD best_index default), best_similarity,
           (best_index : ℤ))
    else
      .ok (none, best_similarity, (best_index : ℤ))

/-- Insert an `(index, (document, score))` triple into a list sorted by
score descending, in front of the first element whose score is not
larger. -/
def insertByScore {α : Type} (a : ℕ × α × ℚ) :
    List (ℕ × α × ℚ) → List (ℕ × α × ℚ)
  | [] => [a]
  | b :: bs =>
    if b.2.2 ≤ a.2.2 then a :: b :: bs else b :: insertByScore a bs

/-- Sort `(index, (document, score))` triples by score descending: the
embedding of `np.argsort(similarities)[::-1]` followed by the per-index
lookups `documents[idx]` and `similarities[idx]` (the triples keep each
index glued to its own document and score, which is exactly what indexing
the parallel lists achieves). -/
def sortByScoreDesc {α : Type} :
    List (ℕ × α × ℚ) → List (ℕ × α × ℚ)
  | [] => []
  | a :: as => insertByScore a (sortByScoreDesc as)

/-- `SimilarityCalculator.get_top_matches`.  Same conventions as
`find_best_match`; the `for idx in sorted_indices[:top_k]` loop with its
`break` at the first below-threshold score is `take top_k` followed by
`takeWhile (threshold ≤ score)`. -/
def get_top_matches {α β : Type} (sim : β → ℚ)
    (document_embeddings : List β) (documents : List α)
    (top_k : ℕ) (threshold : Option ℚ) (configThreshold : ℚ) :
    Except String (List (α × ℚ × ℕ)) :=
  if documents.length ≠ document_embeddings.length then
    .error "Number of documents must match number of embeddings"
  else if documents.length = 0 then
    .ok []
  else
    let t := threshold.getD configThreshold
    let similarities := document_embeddings.map sim
    let sorted := sortByScoreDesc (documents.zip similarities).enum
    .ok ((((sorted.take top_k).takeWhile fun a => t ≤ a.2.2).map
          fun a => (a.2.1, a.2.2, a.1)))

/-- A Python value arriving in the JSON `threshold` field.  `num` covers
`int` and `float` (and `bool`, which is an `int` subclass in Python, with
`True = 1` and `False = 0`); the other constructors are the non-numeric
JSON shapes, on which `isinstance(threshold, (int, float))` is false. -/
inductive PyVal
  | num (q : ℚ)
  | str (s : String)
  | listV
  | dictV
  | null
deriving DecidableEq, Repr

/-- `isinstance(threshold, (int, float))`. -/
def PyVal.isNumeric : PyVal → Bool
  | .num _ => true
  | _ => false

/-- The numeric value of a `PyVal`; `0` on non-numeric values, which
`validate_threshold` rejects before this is ever read. -/
def PyVal.toQ : PyVal → ℚ
  | .num q => q
  | _ => 0

/-- `ThresholdValidator.validate_threshold`:
`isinstance(threshold, (int, float)) and 0.0 <= threshold <= 1.0`. -/
def validate_threshold (v : PyVal) : Bool :=
  v.isNumeric && decide (0 ≤ v.toQ) && decide (v.toQ ≤ 1)

/-- `ThresholdValidator.get_effective_threshold`: validate a provided
threshold (raising `ValueError` on failure), else fall back to the config
value, itself validated with a final default of `0.6`. -/
def get_effective_threshold (provided : Option PyVal) (config : PyVal) :
    Except String ℚ :=
  match provided with
  | some v =>
    if validate_threshold v then .ok v.toQ
    else .error "Invalid threshold: must be between 0.0 and 1.0"
  | none =>
    if validate_threshold config then .ok config.toQ
    else .ok (6 / 10)

/-- The externally visible side effects of the `/query` endpoint, in the
order it performs them: MongoDB document retrieval, document embedding,
query embedding, similarity calculation. -/
inductive Effect
  | fetchDocuments
  | embedDocuments
  | embedQuery
  | similarityCalc
deriving DecidableEq, Repr

/-- The response classes of the `/query` endpoint
(`app/api/routes.py::query_endpoint`), keyed by the HTTP status it maps
them to. -/
inductive QueryResponse (α : Type)
  | badRequest (msg : String)
  | serviceUnavailable
  | dbError
  | embeddingError
  | similarityError (msg : String)
  | notFound (bestSimilarity : ℚ) (thresholdUsed : ℚ)
  | ok (doc : α) (score : ℚ) (idx : ℤ)
deriving DecidableEq, Repr

/-- The `/query` endpoint pipeline of `app/api/routes.py` from document
retrieval on (lines 147-223 of `routes.py`).  External collaborators are
explicit arguments: `docsResult` is the outcome of
`DocumentService.get_questions_for_embedding()` (`none` = raised),
`embedDocs` is `EmbeddingService.embed_questions_from_documents` (`none` =
raised; otherwise the aligned `(document_embeddings, valid_documents)`
pair), `embedQ` is `EmbeddingService.embed_text` on the stripped question.
The returned trace records which collaborators were reached, in order. -/
def query_endpoint_rest {α β : Type} [Inhabited α] (question : String)
    (custom_threshold : Option ℚ) (configThreshold : ℚ)
    (docsResult : Option (List α))
    (embedDocs : List α → Option (List β × List α))
    (embedQ : String → Option β) (sim : β → ℚ) :
    QueryResponse α × List Effect :=
  match docsResult with
  | none => (.dbError, [.fetchDocuments])
  | some docs =>
    if docs.isEmpty then (.serviceUnavailable, [.fetchDocuments])
    else
      match embedDocs docs with
      | none => (.embeddingError, [.fetchDocuments, .embedDocuments])
      | some (document_embeddings, valid_documents) =>
        match embedQ (pyStrip question) with
        | none =>
          (.embeddingError,
           [.fetchDocuments, .embedDocuments, .embedQuery])
        | some _ =>
          let allEffects :=
            [Effect.fetchDocuments, .embedDocuments, .embedQuery,
             .similarityCalc]
          match find_best_match sim document_embeddings valid_documents
              custom_threshold configThreshold with
          | .error e => (.similarityError e, allEffects)
          | .ok (none, s, _) =>
            let shown :=
              match custom_threshold with
              | some t => if t = 0 then configThreshold else t
              | none => configThreshold
            (.notFound s shown, allEffects)
          | .ok (some d, s, i) => (.ok d s i, allEffects)

/-- The validation stage of the `/query` endpoint: the `question` field
check and, when a `threshold` field is present, its validation via
`get_effective_threshold` — both before `query_endpoint_rest` is
entered. -/
def query_endpoint {α β : Type} [Inhabited α] (question : String)
    (thresholdField : Option PyVal) (configThreshold : ℚ)
    (docsResult : Option (List α))
    (embedDocs : List α → Option (List β × List α))
    (embedQ : String → Option β) (sim : β → ℚ) :
    QueryResponse α × List Effect :=
  if pyStrip question = "" then
    (.badRequest "Field question must be a non-empty string", [])
  else
    match thresholdField with
    | some v =>
      match get_effective_threshold (some v) (.num configThreshold) with
      | .error e => (.badRequest e, [])
      | .ok t =>
        query_endpoint_rest question (some t) configThreshold docsResult
          embedDocs embedQ sim
    | none =>
      query_endpoint_rest question none configThreshold docsResult
        embedDocs embedQ sim

/-- Modelled from the spec: the external ranker client
(`ExternalRankerProtocol`, spec section 4.4) is not among the provided
source files — only the spec describes it.  The scorer response carries a
numeric confidence score and either a matched question string or an
explicit not-found sentinel string. -/
structure RankerResponse where
  score : ℚ
  matched : Option String
deriving DecidableEq, Repr

/-- Modelled from the spec: the not-found sentinel string the scorer uses
in place of a matched question. -/
def not_found_sentinel : String := "No result found"

/-- Modelled from the spec: the acceptance rule of
`ExternalRankerProtocol` (spec section 4.4).  A response is accepted as a
match only if a matched-question string is present, is not the sentinel,
its confidence score reaches the fixed confidence threshold, and it is a
verbatim member of the candidate question list sent to the scorer. -/
def accept_ranker_response (resp : RankerResponse)
    (sentQuestions : List String) (confidenceThreshold : ℚ) :
    Option String :=
  match resp.matched with
  | none => none
  | some m =>
    if m = not_found_sentinel then none
    else if resp.score < confidenceThreshold then none
    else if sentQuestions.contains m then some m
    else none

/-! Helper lemmas about `maxVal` and `argmaxIdx`. -/

theorem foldl_max_init (l : List ℚ) :
    ∀ a b : ℚ, l.foldl max (max a b) = max a (l.foldl max b) := by
  induction l with
  | nil => intro a b; simp
  | cons c t ih =>
    intro a b
    simp only [List.foldl_cons]
    rw [max_assoc, ih]

theorem maxVal_cons (x y : ℚ) (xs : List ℚ) :
    maxVal (x :: y :: xs) = max x (maxVal (y :: xs)) := by
  simp only [maxVal, List.foldl_cons]
  exact foldl_max_init xs x y

theorem le_maxVal_of_mem : ∀ {l : List ℚ} {x : ℚ}, x ∈ l → x ≤ maxVal l
  | [a], x, h => by
    simp only [List.mem_singleton] at h
    simp [maxVal, h]
  | a :: b :: t, x, h => by
    rw [maxVal_cons]
    rcases List.mem_cons.mp h with h1 | h2
    · exact h1 ▸ le_max_left _ _
    · exact le_trans (le_maxVal_of_mem h2) (le_max_right _ _)

theorem maxVal_mem : ∀ {l : List ℚ}, l ≠ [] → maxVal l ∈ l
  | [a], _ => by simp [maxVal]
  | a :: b :: t, _ => by
    rw [maxVal_cons]
    rcases le_total a (maxVal (b :: t)) with h | h
    · rw [max_eq_right h]
      exact List.mem_cons_of_mem _ (maxVal_mem (by simp))
    · rw [max_eq_left h]
      exact List.mem_cons_self _ _

theorem argmaxIdx_lt_length : ∀ {l : List ℚ}, l ≠ [] → argmaxIdx l < l.length
  | [_], _ => by simp [argmaxIdx]
  | x :: y :: xs, _ => by
    simp only [argmaxIdx]
    split
    · have := argmaxIdx_lt_length (l := y :: xs) (by simp)
      simp only [List.length_cons] at this ⊢
      omega
    · simp

theorem getD_argmaxIdx :
    ∀ {l : List ℚ}, l ≠ [] → l.getD (argmaxIdx l) 0 = maxVal l
  | [a], _ => by simp [argmaxIdx, maxVal]
  | x :: y :: xs, _ => by
    rw [maxVal_cons]
    by_cases h : x < maxVal (y :: xs)
    · simp only [argmaxIdx, if_pos h, List.getD_cons_succ]
      rw [getD_argmaxIdx (by simp)]
      exact (max_eq_right h.le).symm
    · simp only [argmaxIdx, if_neg h, List.getD_cons_zero]
      push_neg at h
      exact (max_eq_left h).symm

theorem argmaxIdx_le_of_getD_eq_maxVal :
    ∀ {l : List ℚ} {j : ℕ},
      j < l.length → l.getD j 0 = maxVal l → argmaxIdx l ≤ j
  | [a], j, _, _ => by simp [argmaxIdx]
  | x :: y :: xs, j, hj, hval => by
    by_cases h : x < maxVal (y :: xs)
    · simp only [argmaxIdx, if_pos h]
      match j with
      | 0 =>
        exfalso
        rw [List.getD_cons_zero, maxVal_cons, max_eq_right h.le] at hval
        exact absurd hval (ne_of_lt h)
      | j + 1 =>
        have hrec : argmaxIdx (y :: xs) ≤ j := by
          apply argmaxIdx_le_of_getD_eq_maxVal
          · simp only [List.length_cons] at hj ⊢
            omega
          · rw [List.getD_cons_succ] at hval
            rw [hval, maxVal_cons, max_eq_right h.le]
        omega
    · simp only [argmaxIdx, if_neg h]
      exact Nat.zero_le _

/-- Reduction of `find_best_match` on well-formed nonempty input. -/
theorem find_best_match_eq {α β : Type} [Inhabited α] (sim : β → ℚ)
    (embs : List β) (docs : List α) (t c : ℚ)
    (hne : docs ≠ []) (hlen : docs.length = embs.length) :
    find_best_match sim embs docs (some t) c =
      (if (embs.map sim).getD (argmaxIdx (embs.map sim)) 0 ≥ t then
        .ok (some (docs.getD (argmaxIdx (embs.map sim)) default),
             (embs.map sim).getD (argmaxIdx (embs.map sim)) 0,
             (argmaxIdx (embs.map sim) : ℤ))
      else
        .ok (none, (embs.map sim).getD (argmaxIdx (embs.map sim)) 0,
             (argmaxIdx (embs.map sim) : ℤ))) := by
  have h1 : ¬ docs.length ≠ embs.length := by simp [hlen]
  have h2 : ¬ docs.length = 0 := by
    simpa [List.length_eq_zero] using hne
  rw [find_best_match, if_neg h1, if_neg h2]
  simp only [Option.getD_some]

/-! Helper lemmas about `insertByScore` / `sortByScoreDesc`. -/

theorem mem_insertByScore {α : Type} (a x : ℕ × α × ℚ) :
    ∀ (l : List (ℕ × α × ℚ)), x ∈ insertByScore a l ↔ x = a ∨ x ∈ l
  | [] => by simp [insertByScore]
  | b :: bs => by
    simp only [insertByScore]
    split
    · simp [List.mem_cons]
    · simp only [List.mem_cons, mem_insertByScore a x bs]
      tauto

theorem sorted_insertByScore {α : Type} (a : ℕ × α × ℚ) :
    ∀ {l : List (ℕ × α × ℚ)},
      List.Sorted (fun p q : ℕ × α × ℚ => q.2.2 ≤ p.2.2) l →
      List.Sorted (fun p q : ℕ × α × ℚ => q.2.2 ≤ p.2.2) (insertByScore a l)
  | [], _ => by simp [insertByScore]
  | b :: bs, h => by
    simp only [insertByScore]
    rcases List.sorted_cons.mp h with ⟨hb, hbs⟩
    split
    · rename_i hba
      exact List.sorted_cons.mpr
        ⟨fun x hx => by
          rcases List.mem_cons.mp hx with rfl | hx'
          · exact hba
          · exact le_trans (hb x hx') hba, h⟩
    · rename_i hba
      push_neg at hba
      refine List.sorted_cons.mpr ⟨fun x hx => ?_, sorted_insertByScore a hbs⟩
      rcases (mem_insertByScore a x bs).mp hx with rfl | hx'
      · exact hba.le
      · exact hb x hx'

theorem sorted_sortByScoreDesc {α : Type} :
    ∀ (l : List (ℕ × α × ℚ)),
      List.Sorted (fun p q : ℕ × α × ℚ => q.2.2 ≤ p.2.2) (sortByScoreDesc l)
  | [] => by simp [sortByScoreDesc]
  | a :: as => by
    simp only [sortByScoreDesc]
    exact sorted_insertByScore a (sorted_sortByScoreDesc as)

theorem mem_sortByScoreDesc {α : Type} (x : ℕ × α × ℚ) :
    ∀ (l : List (ℕ × α × ℚ)), x ∈ sortByScoreDesc l ↔ x ∈ l
  | [] => by simp [sortByScoreDesc]
  | a :: as => by
    simp only [sortByScoreDesc, mem_insertByScore, mem_sortByScoreDesc x as,
      List.mem_cons]

/-- On a list sorted by score descending, the `break` at the first
below-threshold element (`takeWhile`) keeps exactly the above-threshold
elements (`filter`): nothing above the threshold sits after the break
point. -/
theorem takeWhile_eq_filter_of_sorted {α : Type} (t : ℚ) :
    ∀ {l : List (ℕ × α × ℚ)},
      List.Sorted (fun p q : ℕ × α × ℚ => q.2.2 ≤ p.2.2) l →
      (l.takeWhile fun a => decide (t ≤ a.2.2)) =
        (l.filter fun a => decide (t ≤ a.2.2))
  | [], _ => rfl
  | b :: bs, h => by
    rcases List.sorted_cons.mp h with ⟨hb, hbs⟩
    by_cases hbt : t ≤ b.2.2
    · simp only [List.takeWhile_cons, List.filter_cons, hbt, decide_True,
        if_true, takeWhile_eq_filter_of_sorted t hbs]
    · have hnone : ∀ x ∈ bs, ¬ (t ≤ x.2.2) := fun x hx hcon =>
        hbt (le_trans hcon (hb x hx))
      simp only [List.takeWhile_cons, List.filter_cons, hbt, decide_False,
        if_false]
      rw [List.filter_eq_nil_iff.mpr fun x hx => by
        simpa using hnone x hx]
      simp

/-- Reduction of `get_top_matches` on well-formed nonempty input. -/
theorem get_top_matches_eq {α β : Type} (sim : β → ℚ) (embs : List β)
    (docs : List α) (k : ℕ) (t c : ℚ)
    (hne : docs ≠ []) (hlen : docs.length = embs.length) :
    get_top_matches sim embs docs k (some t) c =
      .ok ((((sortByScoreDesc ((docs.zip (embs.map sim)).enum)).take
            k).takeWhile (fun a => decide (t ≤ a.2.2))).map
          fun a => (a.2.1, a.2.2, a.1)) := by
  have h1 : ¬ docs.length ≠ embs.length := by simp [hlen]
  have h2 : ¬ docs.length = 0 := by
    simpa [List.length_eq_zero] using hne
  rw [get_top_matches, if_neg h1, if_neg h2]
  simp only [Option.getD_some]

/-- C1: on a non-empty document list aligned with its embedding list and a
threshold `t ∈ [0, 1]`, `find_best_match` returns the document at the
first index attaining the maximum similarity, that maximum, and that
index, whenever the maximum is at least `t`; and returns no entry together
with that same best similarity and best index whenever the maximum is
below `t`.  The first conjunct certifies that `argmaxIdx`/`maxVal` are the
argmax and the maximum of the similarity list. -/
theorem find_best_match_threshold_spec {α β : Type} [Inhabited α]
    (sim : β → ℚ) (embs : List β) (docs : List α) (t c : ℚ)
    (hne : docs ≠ []) (hlen : docs.length = embs.length)
    (_h0 : 0 ≤ t) (_h1 : t ≤ 1) :
    (argmaxIdx (embs.map sim) < docs.length ∧
     (embs.map sim).getD (argmaxIdx (embs.map sim)) 0 =
       maxVal (embs.map sim) ∧
     (∀ x ∈ embs.map sim, x ≤ maxVal (embs.map sim))) ∧
    (t ≤ maxVal (embs.map sim) →
      find_best_match sim embs docs (some t) c =
        .ok (some (docs.getD (argmaxIdx (embs.map sim)) default),
             maxVal (embs.map sim), (argmaxIdx (embs.map sim) : ℤ))) ∧
    (maxVal (embs.map sim) < t →
      find_best_match sim embs docs (some t) c =
        .ok (none, maxVal (embs.map sim),
             (argmaxIdx (embs.map sim) : ℤ))) := by
  have hmne : embs.map sim ≠ [] := by
    intro hcon
    apply hne
    have : embs.length = 0 := by simpa using congrArg List.length hcon
    exact List.length_eq_zero.mp (hlen.trans this)
  have hlt : argmaxIdx (embs.map sim) < docs.length := by
    have := argmaxIdx_lt_length hmne
    simpa [List.length_map, hlen] using this
  refine ⟨⟨hlt, getD_argmaxIdx hmne, fun x hx => le_maxVal_of_mem hx⟩,
    ?_, ?_⟩
  · intro ht
    rw [find_best_match_eq sim embs docs t c hne hlen,
      getD_argmaxIdx hmne, if_pos (ge_iff_le.mpr ht)]
  · intro ht
    rw [find_best_match_eq sim embs docs t c hne hlen,
      getD_argmaxIdx hmne, if_neg (not_le.mpr ht)]

/-- C1 witness: three documents, similarities `[1, 3, 2]`, threshold `1`:
the match at index `1` with similarity `3` is returned. -/
theorem find_best_match_threshold_spec_witness :
    find_best_match (id : ℚ → ℚ) [1, 3, 2] [10, 20, 30] (some 1) 1 =
      .ok (some (20 : ℕ), 3, 1) := by
  have h := find_best_match_threshold_spec (id : ℚ → ℚ) [1, 3, 2]
    ([10, 20, 30] : List ℕ) 1 1 (by decide) (by decide) (by decide)
    (by decide)
  exact (h.2.1 (by decide)).trans (by rfl)

/-- C6: with a non-empty aligned candidate set, `find_best_match` returns
the index `argmaxIdx` of the similarity list, and that index is minimal
among all indices attaining the maximum similarity (stable argmax): any
tie is resolved in favour of the earliest candidate in original order. -/
theorem find_best_match_stable_tie_break {α β : Type} [Inhabited α]
    (sim : β → ℚ) (embs : List β) (docs : List α) (t c : ℚ)
    (hne : docs ≠ []) (hlen : docs.length = embs.length) :
    find_best_match sim embs docs (some t) c =
      .ok ((if t ≤ maxVal (embs.map sim) then
              some (docs.getD (argmaxIdx (embs.map sim)) default)
            else none),
           maxVal (embs.map sim), (argmaxIdx (embs.map sim) : ℤ)) ∧
    (∀ j, j < (embs.map sim).length →
      (embs.map sim).getD j 0 = maxVal (embs.map sim) →
      argmaxIdx (embs.map sim) ≤ j) := by
  have hmne : embs.map sim ≠ [] := by
    intro hcon
    apply hne
    have : embs.length = 0 := by simpa using congrArg List.length hcon
    exact List.length_eq_zero.mp (hlen.trans this)
  refine ⟨?_, fun j hj hv => argmaxIdx_le_of_getD_eq_maxVal hj hv⟩
  rw [find_best_match_eq sim embs docs t c hne hlen, getD_argmaxIdx hmne]
  by_cases ht : t ≤ maxVal (embs.map sim)
  · rw [if_pos (ge_iff_le.mpr ht), if_pos ht]
  · rw [if_neg (fun hcon => ht (ge_iff_le.mp hcon)), if_neg ht]

/-- C6 witness: similarities `[2, 3, 3]` tie at the maximum `3`; index `1`
(the earlier of the two) is selected and is minimal among the indices
attaining the maximum. -/
theorem find_best_match_stable_tie_break_witness :
    find_best_match (id : ℚ → ℚ) [2, 3, 3] [10, 20, 30] (some 1) 1 =
      .ok (some (20 : ℕ), 3, 1) ∧ argmaxIdx [2, 3, 3] ≤ 2 := by
  have h := find_best_match_stable_tie_break (id : ℚ → ℚ) [2, 3, 3]
    ([10, 20, 30] : List ℕ) 1 1 (by decide) (by decide)
  exact ⟨h.1.trans (by rfl), h.2 2 (by decide) (by decide)⟩

/-- C5: whenever the document count differs from the embedding count, both
`find_best_match` and `get_top_matches` fail with the descriptive
`ValueError` message, before any similarity is computed (the result is
this error for every similarity function, so no shifted or misaligned
match can be returned). -/
theorem alignment_guard {α β : Type} [Inhabited α] (sim : β → ℚ)
    (embs : List β) (docs : List α) (k : ℕ) (t : Option ℚ) (c : ℚ)
    (h : docs.length ≠ embs.length) :
    find_best_match sim embs docs t c =
      .error "Number of documents must match number of embeddings" ∧
    get_top_matches sim embs docs k t c =
      .error "Number of documents must match number of embeddings" :=
  ⟨by rw [find_best_match, if_pos h], by rw [get_top_matches, if_pos h]⟩

/-- C5 witness: five documents against four candidate vectors. -/
theorem alignment_guard_witness :
    find_best_match (id : ℚ → ℚ) [1, 1, 1, 1] [1, 2, 3, 4, 5]
        (some 1) 1 =
      .error "Number of documents must match number of embeddings" ∧
    get_top_matches (id : ℚ → ℚ) [1, 1, 1, 1] [1, 2, 3, 4, 5] 3
        (some 1) 1 =
      .error "Number of documents must match number of embeddings" :=
  alignment_guard (id : ℚ → ℚ) [1, 1, 1, 1] ([1, 2, 3, 4, 5] : List ℕ) 3
    (some 1) 1 (by decide)

/-- C4: on an aligned candidate set, `get_top_matches` succeeds with a
result list that is sorted by descending similarity, contains only scores
at least the threshold, has at most `k` elements, and — because iteration
stops only at the first below-threshold candidate — omits no
above-threshold candidate from the top-`k` cut of the descending order;
an empty document list yields an empty result. -/
theorem get_top_matches_spec {α β : Type} (sim : β → ℚ) (embs : List β)
    (docs : List α) (k : ℕ) (t c : ℚ) (_hk : 1 ≤ k)
    (hlen : docs.length = embs.length) :
    (∃ res, get_top_matches sim embs docs k (some t) c = .ok res) ∧
    (∀ res, get_top_matches sim embs docs k (some t) c = .ok res →
      List.Sorted (fun p q : α × ℚ × ℕ => q.2.1 ≤ p.2.1) res ∧
      (∀ p ∈ res, t ≤ p.2.1) ∧
      res.length ≤ k ∧
      (∀ p ∈ (sortByScoreDesc ((docs.zip (embs.map sim)).enum)).take k,
        t ≤ p.2.2 → (p.2.1, p.2.2, p.1) ∈ res) ∧
      (docs = [] → res = [])) := by
  by_cases hd : docs = []
  · subst hd
    have hempty : get_top_matches sim embs ([] : List α) k (some t) c =
        .ok [] := by
      rw [get_top_matches]
      have h1 : ¬ ([] : List α).length ≠ embs.length := by
        simpa using hlen
      rw [if_neg h1]
      simp
    refine ⟨⟨[], hempty⟩, fun res hres => ?_⟩
    have hres' : ([] : List (α × ℚ × ℕ)) = res :=
      Except.ok.inj (hempty.symm.trans hres)
    subst hres'
    simp [sortByScoreDesc]
  · have heq := get_top_matches_eq sim embs docs k t c hd hlen
    refine ⟨⟨_, heq⟩, fun res hres => ?_⟩
    have hres' := Except.ok.inj (heq.symm.trans hres)
    subst hres'
    set sorted := sortByScoreDesc ((docs.zip (embs.map sim)).enum)
      with hsorted
    have hsort : List.Sorted (fun p q : ℕ × α × ℚ => q.2.2 ≤ p.2.2)
        sorted := sorted_sortByScoreDesc _
    have hsort_take : List.Sorted (fun p q : ℕ × α × ℚ => q.2.2 ≤ p.2.2)
        (sorted.take k) :=
      List.Pairwise.sublist (List.take_sublist k sorted) hsort
    have hsort_tw : List.Sorted (fun p q : ℕ × α × ℚ => q.2.2 ≤ p.2.2)
        ((sorted.take k).takeWhile fun a => decide (t ≤ a.2.2)) :=
      List.Pairwise.sublist (List.takeWhile_sublist _) hsort_take
    refine ⟨?_, ?_, ?_, ?_, fun hcon => absurd hcon hd⟩
    · rw [List.Sorted, List.pairwise_map]
      exact hsort_tw
    · intro p hp
      obtain ⟨a, ha, rfl⟩ := List.mem_map.mp hp
      have := List.mem_takeWhile_imp ha
      simpa using this
    · calc (((sorted.take k).takeWhile fun a =>
              decide (t ≤ a.2.2)).map fun a => (a.2.1, a.2.2, a.1)).length
          = ((sorted.take k).takeWhile fun a =>
              decide (t ≤ a.2.2)).length := List.length_map _ _
        _ ≤ (sorted.take k).length :=
            (List.takeWhile_sublist _).length_le
        _ ≤ k := List.length_take_le k sorted
    · intro p hp hpt
      apply List.mem_map.mpr
      refine ⟨p, ?_, rfl⟩
      rw [takeWhile_eq_filter_of_sorted t hsort_take]
      exact List.mem_filter.mpr ⟨hp, by simpa using hpt⟩

/-- C4 witness: similarities `[1, 3, 2]`, `k = 2`, threshold `2`: the
result is `[(20, 3, 1), (30, 2, 2)]`, which has at most `2` elements. -/
theorem get_top_matches_spec_witness :
    get_top_matches (id : ℚ → ℚ) [1, 3, 2] [10, 20, 30] 2 (some 2) 1 =
      .ok [((20 : ℕ), (3 : ℚ), 1), (30, 2, 2)] ∧
    [((20 : ℕ), (3 : ℚ), 1), (30, 2, 2)].length ≤ 2 := by
  have h := get_top_matches_spec (id : ℚ → ℚ) [1, 3, 2]
    ([10, 20, 30] : List ℕ) 2 2 1 (by decide) (by decide)
  exact ⟨by rfl, (h.2 [((20 : ℕ), (3 : ℚ), 1), (30, 2, 2)]
    (by rfl)).2.2.1⟩

/-- C2: on any live-retrieval failure (non-200 status including 401/403/404,
a 200 with a non-list or unparsable payload, timeout, connection failure,
request failure, or any other exception), with the cache invalid and no
explicit mock request, `fetch_knowledge_base` returns the static mock
dataset (never raising — the function is total on every failure shape),
stores it in the cache with provenance `'fallback'`, and sets the cache
timestamp to the current time. -/
theorem fetch_falls_back_on_failure (s : KBState) (now : ℤ)
    (live : LiveResult) (hfail : live.isFailure = true)
    (hcache : is_cache_valid s now = false) :
    fetch_knowledge_base s now false live =
      (mock_data, store_cache mock_data "fallback" now) ∧
    (store_cache mock_data "fallback" now).cache =
      some ⟨mock_data, "fallback", mock_data.length⟩ ∧
    (store_cache mock_data "fallback" now).last_cache_time = now := by
  refine ⟨?_, rfl, rfl⟩
  cases live with
  | ok p =>
    cases p with
    | list es => simp [LiveResult.isFailure] at hfail
    | nonList =>
      simp [fetch_knowledge_base, hcache, fallback_to_mock]
  | okBadJson => simp [fetch_knowledge_base, hcache, fallback_to_mock]
  | httpStatus code =>
    simp [fetch_knowledge_base, hcache, fallback_to_mock]
  | timeout => simp [fetch_knowledge_base, hcache, fallback_to_mock]
  | connectionError =>
    simp [fetch_knowledge_base, hcache, fallback_to_mock]
  | requestError =>
    simp [fetch_knowledge_base, hcache, fallback_to_mock]
  | genericError =>
    simp [fetch_knowledge_base, hcache, fallback_to_mock]

/-- C2 witness: empty cache, a timeout at time 400. -/
theorem fetch_falls_back_on_failure_witness :
    fetch_knowledge_base ⟨none, 0⟩ 400 false .timeout =
      (mock_data, store_cache mock_data "fallback" 400) ∧
    (store_cache mock_data "fallback" 400).cache =
      some ⟨mock_data, "fallback", mock_data.length⟩ ∧
    (store_cache mock_data "fallback" 400).last_cache_time = 400 :=
  fetch_falls_back_on_failure (⟨none, 0⟩ : KBState) 400 .timeout
    (by decide) (by decide)

/-- C3: after a store of `entries` with provenance `status` at time `t0`,
any fetch at a time `t1` with `t1 - t0 < 300` finds the cache valid and
returns exactly those entries with the state — and hence the stored
provenance and timestamp — unchanged, for every `use_mock` flag and every
live outcome (the live source is not contacted: the result does not depend
on `live`); at any time `t2` with `t2 - t0 ≥ 300` the cached record is
invalid and a fetch re-acquires the data, returning the live payload `d`
instead of the cached entries. -/
theorem cache_ttl_spec (entries : List Entry) (status : String)
    (t0 t1 t2 : ℤ) (use_mock : Bool) (live : LiveResult) (d : List Entry)
    (hfresh : t1 - t0 < cache_expiry)
    (hstale : ¬ t2 - t0 < cache_expiry) :
    is_cache_valid (store_cache entries status t0) t1 = true ∧
    fetch_knowledge_base (store_cache entries status t0) t1 use_mock
        live = (entries, store_cache entries status t0) ∧
    (store_cache entries status t0).cache =
      some ⟨entries, status, entries.length⟩ ∧
    is_cache_valid (store_cache entries status t0) t2 = false ∧
    fetch_knowledge_base (store_cache entries status t0) t2 false
        (.ok (.list d)) = (d, store_cache d "success" t2) := by
  have hvalid : is_cache_valid (store_cache entries status t0) t1 =
      true := by
    simp [is_cache_valid, store_cache, hfresh]
  have hinvalid : is_cache_valid (store_cache entries status t0) t2 =
      false := by
    simp [is_cache_valid, store_cache, hstale]
  have hvalid' :
      is_cache_valid ⟨some ⟨entries, status, entries.length⟩, t0⟩ t1 =
        true := hvalid
  refine ⟨hvalid, ?_, rfl, hinvalid, ?_⟩
  · cases live with
    | ok p =>
      cases p with
      | list es => simp [fetch_knowledge_base, hvalid', store_cache]
      | nonList => simp [fetch_knowledge_base, hvalid', store_cache]
    | okBadJson => simp [fetch_knowledge_base, hvalid', store_cache]
    | httpStatus code =>
      simp [fetch_knowledge_base, hvalid', store_cache]
    | timeout => simp [fetch_knowledge_base, hvalid', store_cache]
    | connectionError =>
      simp [fetch_knowledge_base, hvalid', store_cache]
    | requestError =>
      simp [fetch_knowledge_base, hvalid', store_cache]
    | genericError =>
      simp [fetch_knowledge_base, hvalid', store_cache]
  · simp [fetch_knowledge_base, hinvalid]

/-- C3 witness: a store at time 0, a fresh fetch at 299 (with a pending
mock request and a live failure, both ignored), a stale fetch at 300. -/
theorem cache_ttl_spec_witness :
    is_cache_valid (store_cache [⟨"e1", some "q"⟩] "success" 0) 299 =
      true ∧
    fetch_knowledge_base (store_cache [⟨"e1", some "q"⟩] "success" 0)
        299 true .timeout =
      ([⟨"e1", some "q"⟩], store_cache [⟨"e1", some "q"⟩] "success" 0) ∧
    (store_cache [⟨"e1", some "q"⟩] "success" 0).cache =
      some (⟨[⟨"e1", some "q"⟩], "success",
             ([⟨"e1", some "q"⟩] : List Entry).length⟩ : CacheRecord) ∧
    is_cache_valid (store_cache [⟨"e1", some "q"⟩] "success" 0) 300 =
      false ∧
    fetch_knowledge_base (store_cache [⟨"e1", some "q"⟩] "success" 0)
        300 false (.ok (.list [⟨"e2", some "r"⟩])) =
      ([⟨"e2", some "r"⟩], store_cache [⟨"e2", some "r"⟩] "success" 300) :=
  cache_ttl_spec [⟨"e1", some "q"⟩] "success" 0 299 300 true .timeout
    [⟨"e2", some "r"⟩] (by decide) (by decide)

/-- C10: whenever the cache holds a record and is younger than the expiry,
`fetch_knowledge_base` returns the cached entries and leaves the state —
entries, provenance status, and timestamp — unchanged, for both values of
`use_mock` and every live outcome: an explicit mock request does not
bypass a valid cache. -/
theorem valid_cache_ignores_use_mock (s : KBState) (now : ℤ)
    (use_mock : Bool) (live : LiveResult) (r : CacheRecord)
    (hrec : s.cache = some r)
    (hfresh : now - s.last_cache_time < cache_expiry) :
    fetch_knowledge_base s now use_mock live = (r.data, s) := by
  have hvalid : is_cache_valid s now = true := by
    simp [is_cache_valid, hrec, hfresh]
  cases live with
  | ok p =>
    cases p with
    | list es => simp [fetch_knowledge_base, hvalid, hrec]
    | nonList => simp [fetch_knowledge_base, hvalid, hrec]
  | okBadJson => simp [fetch_knowledge_base, hvalid, hrec]
  | httpStatus code => simp [fetch_knowledge_base, hvalid, hrec]
  | timeout => simp [fetch_knowledge_base, hvalid, hrec]
  | connectionError => simp [fetch_knowledge_base, hvalid, hrec]
  | requestError => simp [fetch_knowledge_base, hvalid, hrec]
  | genericError => simp [fetch_knowledge_base, hvalid, hrec]

/-- C10 witness: a valid one-entry cache at time 10 with an explicit mock
request and a live success carrying different data — the cached entry is
returned and the state is unchanged. -/
theorem valid_cache_ignores_use_mock_witness :
    fetch_knowledge_base ⟨some ⟨[⟨"e1", some "q"⟩], "success", 1⟩, 0⟩ 10
        true (.ok (.list [⟨"e2", some "r"⟩])) =
      ([⟨"e1", some "q"⟩],
       ⟨some ⟨[⟨"e1", some "q"⟩], "success", 1⟩, 0⟩) :=
  valid_cache_ignores_use_mock
    (⟨some ⟨[⟨"e1", some "q"⟩], "success", 1⟩, 0⟩ : KBState) 10 true
    (.ok (.list [⟨"e2", some "r"⟩]))
    (⟨[⟨"e1", some "q"⟩], "success", 1⟩ : CacheRecord) rfl (by decide)

/-- C7: the claimed AI-keyword-group scenario fails on the code.  For the
query `"tell me about AI"` against a dataset whose only entry has question
`"what\x27s artificial intelligence"` (no exact/substring match and no
earlier-group match exist), `search_knowledge_base` returns no match —
even though, as the last two conjuncts certify, both the query and the
entry question contain a term of the `ai_keywords` group: that group is
defined in the source but consulted by neither matching loop. -/
theorem search_ai_group_not_consulted :
    (search_knowledge_base
        ⟨some ⟨[⟨"kb1", some "what\x27s artificial intelligence"⟩],
               "success", 1⟩, 0⟩
        0 .timeout "tell me about AI").1 = none ∧
    anyKeyword (pyLower (pyStrip "tell me about AI")) ai_keywords =
      true ∧
    anyKeyword (pyLower "what\x27s artificial intelligence") ai_keywords =
      true :=
  ⟨rfl, rfl, rfl⟩

/-- C8: `get_effective_threshold` accepts a supplied threshold exactly when
it is numeric and within `[0, 1]`, returning it unchanged, and raises the
descriptive `ValueError` otherwise; and in the `/query` endpoint a
rejected threshold produces the 400 response before any document
retrieval, embedding, or similarity computation is performed (the effect
trace is empty and the outcome is the same for every downstream
collaborator). -/
theorem invalid_threshold_rejected {α β : Type} [Inhabited α] :
    (∀ (q : ℚ) (config : PyVal), 0 ≤ q → q ≤ 1 →
      get_effective_threshold (some (.num q)) config = .ok q) ∧
    (∀ (v : PyVal) (config : PyVal),
      v.isNumeric = false ∨ v.toQ < 0 ∨ 1 < v.toQ →
      get_effective_threshold (some v) config =
        .error "Invalid threshold: must be between 0.0 and 1.0") ∧
    (∀ (question : String) (v : PyVal) (configThreshold : ℚ)
        (docsResult : Option (List α))
        (embedDocs : List α → Option (List β × List α))
        (embedQ : String → Option β) (sim : β → ℚ),
      pyStrip question ≠ "" → validate_threshold v = false →
      query_endpoint question (some v) configThreshold docsResult
          embedDocs embedQ sim =
        (.badRequest "Invalid threshold: must be between 0.0 and 1.0",
         [])) := by
  refine ⟨?_, ?_, ?_⟩
  · intro q config h0 h1
    simp [get_effective_threshold, validate_threshold, PyVal.isNumeric,
      PyVal.toQ, h0, h1]
  · intro v config h
    have hv : validate_threshold v = false := by
      cases v with
      | num q =>
        rcases h with h | h | h
        · simp [PyVal.isNumeric] at h
        · have hd : decide (0 ≤ (PyVal.num q).toQ) = false :=
            decide_eq_false (by simpa [PyVal.toQ] using not_le.mpr h)
          simp [validate_threshold, hd]
        · have hd : decide ((PyVal.num q).toQ ≤ 1) = false :=
            decide_eq_false (by simpa [PyVal.toQ] using not_le.mpr h)
          simp [validate_threshold, hd]
      | str s => simp [validate_threshold, PyVal.isNumeric]
      | listV => simp [validate_threshold, PyVal.isNumeric]
      | dictV => simp [validate_threshold, PyVal.isNumeric]
      | null => simp [validate_threshold, PyVal.isNumeric]
    simp [get_effective_threshold, hv]
  · intro question v configThreshold docsResult embedDocs embedQ sim hq hv
    simp [query_endpoint, hq, get_effective_threshold, hv]

/-- C8 witness: the numeric but out-of-range threshold `2` is rejected by
`get_effective_threshold`, and in the endpoint a string threshold yields
the 400 response with an empty effect trace. -/
theorem invalid_threshold_rejected_witness :
    get_effective_threshold (some (.num 2)) (.num 1) =
      .error "Invalid threshold: must be between 0.0 and 1.0" ∧
    query_endpoint "hello" (some (.str "nan")) 1
        (some [(7 : ℕ)]) (fun _ => none) (fun _ => (none : Option ℕ))
        (fun _ => (0 : ℚ)) =
      (.badRequest "Invalid threshold: must be between 0.0 and 1.0",
       []) :=
  ⟨(invalid_threshold_rejected (α := ℕ) (β := ℕ)).2.1 (.num 2) (.num 1)
      (by decide),
   (invalid_threshold_rejected (α := ℕ) (β := ℕ)).2.2 "hello"
      (.str "nan") 1 (some [(7 : ℕ)]) (fun _ => none) (fun _ => none)
      (fun _ => (0 : ℚ)) (by decide) (by decide)⟩

/-- C9 (modelled from the spec): the external ranker acceptance rule.  A
scorer response is accepted as a match exactly when a matched-question
string is present, is not the not-found sentinel, its confidence score
reaches the confidence threshold, and it is a verbatim member of the
candidate list sent; in particular a response naming a question absent
from the sent dataset is rejected regardless of its score. -/
theorem ranker_acceptance_rule (resp : RankerResponse)
    (sent : List String) (confT : ℚ) (m : String) :
    (accept_ranker_response resp sent confT = some m ↔
      resp.matched = some m ∧ m ≠ not_found_sentinel ∧
      confT ≤ resp.score ∧ m ∈ sent) ∧
    (resp.matched = some m → m ∉ sent →
      accept_ranker_response resp sent confT = none) := by
  constructor
  · constructor
    · intro h
      cases hm : resp.matched with
      | none =>
        simp only [accept_ranker_response, hm] at h
        exact absurd h (by simp)
      | some n =>
        simp only [accept_ranker_response, hm] at h
        by_cases h1 : n = not_found_sentinel
        · rw [if_pos h1] at h; exact absurd h (by simp)
        · rw [if_neg h1] at h
          by_cases h2 : resp.score < confT
          · rw [if_pos h2] at h; exact absurd h (by simp)
          · rw [if_neg h2] at h
            by_cases h3 : sent.contains n = true
            · rw [if_pos h3] at h
              obtain rfl := Option.some.inj h
              exact ⟨rfl, h1, not_lt.mp h2, List.elem_iff.mp h3⟩
            · rw [if_neg h3] at h
              exact absurd h (by simp)
    · rintro ⟨hm, h1, h2, h3⟩
      simp only [accept_ranker_response, hm]
      rw [if_neg h1, if_neg (not_lt.mpr h2),
        if_pos (List.elem_iff.mpr h3)]
  · intro hm hnot
    simp only [accept_ranker_response, hm]
    by_cases h1 : m = not_found_sentinel
    · rw [if_pos h1]
    · rw [if_neg h1]
      by_cases h2 : resp.score < confT
      · rw [if_pos h2]
      · rw [if_neg h2,
          if_neg (fun hc => hnot (List.elem_iff.mp hc))]

/-- C9 witness: a response naming a question not in the sent candidate
list, with a score far above the threshold, is rejected. -/
theorem ranker_acceptance_rule_witness :
    accept_ranker_response ⟨10, some "ghost question"⟩
      ["real question"] 1 = none :=
  (ranker_acceptance_rule ⟨10, some "ghost question"⟩ ["real question"]
      1 "ghost question").2 rfl (by decide)
